import Mathlib

/-!
Verification of the Dolibarr changelog pipeline (section extraction, line
classification, PR resolution, enrichment orchestration, persisted work queue)
against its design document.

The Python sources are shallowly embedded: strings are Lean `String`s
(or `List Char` where line scanning is involved), fallible calls return
`Option`/`Except`, the SQLite table is a `List DbRow`, and the external
collaborators (version-control host, summarization service) are a record of
oracle functions.  Python-specific behaviours that the code relies on
(truthiness of `""`/`0`/`None`/empty list, `str.strip`, `s[:n]`,
`dict.get` defaults, f-string rendering of `None`) are modelled by small
helpers named `py*`.  `\d` and `str.lower`/`str.strip` are modelled at ASCII
level, which is exact on the changelog inputs the program handles.
-/

/-! ## Python string helpers -/

/-- One apostrophe, kept as a named constant so the French messages from the
source can be assembled verbatim. -/
def apostr : String := "\u0027"

/-- Characters removed by Python `str.strip()` (ASCII whitespace). -/
def isPySpace (c : Char) : Bool :=
  c = ' ' || c = '\t' || c = '\n' || c = '\r' || c = '\x0b' || c = '\x0c'

/-- `str.strip()` on the underlying character list. -/
def stripList (l : List Char) : List Char :=
  ((l.dropWhile isPySpace).reverse.dropWhile isPySpace).reverse

/-- Python `s.strip()`. -/
def pyStrip (s : String) : String := String.mk (stripList s.data)

/-- ASCII lowercasing of one character, as `str.lower` acts on the ASCII
range (the header keywords the code folds are ASCII). -/
def lowerChar (c : Char) : Char :=
  if 65 ≤ c.toNat && c.toNat ≤ 90 then Char.ofNat (c.toNat + 32) else c

/-- Python `s.lower()` (ASCII range). -/
def pyLower (s : String) : String := String.mk (s.data.map lowerChar)

/-- Python `s[:n]` (slicing counts code points, as `List.take` does). -/
def pyTake (s : String) (n : Nat) : String := String.mk (s.data.take n)

/-- Python `len(s)` (code points). -/
def pyLen (s : String) : Nat := s.data.length

/-- Everything after the first `:` of the list (empty when there is none);
`s.split(":", 1)[1]` when a colon is present. -/
def afterColonList : List Char → List Char
  | [] => []
  | c :: rest => if c = ':' then rest else afterColonList rest

/-- Python `s.split(":", 1)[1]` (used only under a `":" in s` guard). -/
def afterFirstColon (s : String) : String := String.mk (afterColonList s.data)

/-- Python `c in s` for a single character. -/
def pyContainsChar (s : String) (c : Char) : Bool := s.data.contains c

/-- Python truthiness of an optional string: `None` and `""` are falsy. -/
def pyTruthyOptStr : Option String → Bool
  | none => false
  | some s => decide (s ≠ "")

/-- Python truthiness of an optional integer: `None` and `0` are falsy. -/
def pyTruthyOptNat : Option Nat → Bool
  | none => false
  | some n => decide (n ≠ 0)

/-- Python `x or y` on an optional string `x` with string fallback `y`. -/
def pyOrStr (o : Option String) (dflt : String) : String :=
  if pyTruthyOptStr o then o.getD "" else dflt

/-- Rendering of an optional string inside an f-string: `None` prints as
`"None"`. -/
def pyShowOptStr : Option String → String
  | none => "None"
  | some s => s

/-- Python `sep.join(parts)`. -/
def pyJoin (sep : String) : List String → String
  | [] => ""
  | [x] => x
  | x :: y :: rest => x ++ sep ++ pyJoin sep (y :: rest)

/-- Digits of a decimal literal to a number, as Python `int()` on a run of
digit characters. -/
def digitsToNat (ds : List Char) : Nat :=
  ds.foldl (fun a c => 10 * a + (c.toNat - 48)) 0

/-! ## Literal-matching primitives for the header regular expressions -/

/-- Strip an exact literal from the front of a character list, returning the
remainder; `none` when the literal is not a prefix.  This is how an escaped
or literal run inside the compiled patterns of `extract_version_section`
consumes input. -/
def dropLit : List Char → List Char → Option (List Char)
  | [], s => some s
  | _ :: _, [] => none
  | c :: cs, d :: ds => if c = d then dropLit cs ds else none

/-- Does `pat` occur (contiguously) somewhere in the list? -/
def containsLit (pat : List Char) : List Char → Bool
  | [] => (dropLit pat []).isSome
  | c :: rest => (dropLit pat (c :: rest)).isSome || containsLit pat rest

/-- The character class `[.\d]` of the target-header pattern (a literal dot
or a digit; `\d` at ASCII level). -/
def digitOrDot (c : Char) : Bool := c.isDigit || c = '.'

/-- No newline in the list: the regions matched by `.`/`.*` in the patterns
(Python `.` does not match `\n` without DOTALL). -/
def noNL (l : List Char) : Bool := l.all (fun c => decide (c ≠ '\n'))

/-- The literal prefix `***** ChangeLog for ` shared by both patterns. -/
def changeLogForLit : List Char := "***** ChangeLog for ".data

/-- The literal ` compared to ` of both patterns. -/
def comparedLit : List Char := " compared to ".data

/-- The literal ` *****` that, with the `$` anchor, must close the line. -/
def starsEndLit : List Char := " *****".data

/-- The tail ` compared to .* \*\*\*\*\*$` of both patterns: the literal
` compared to `, then any newline-free text, then ` *****` as the final six
characters (forced by the `$` anchor, since `.*` cannot cross a newline and
` *****` is newline-free the split point is unique). -/
def tailMatch (rest : List Char) : Bool :=
  match dropLit comparedLit rest with
  | none => false
  | some r2 =>
      decide (6 ≤ r2.length) &&
      decide (r2.drop (r2.length - 6) = starsEndLit) &&
      noNL (r2.take (r2.length - 6))

/-- The version-specific header pattern compiled by `extract_version_section`:

`f"^\*\*\*\*\* ChangeLog for {re.escape(version_prefix_input)}.0.0(?:[.\d]*)? compared to .* \*\*\*\*\*$"`

used with `.match` on a single line, hence full-line semantics.
`re.escape(version_prefix_input)` matches the supplied prefix literally.  The
`.0.0` that follows is NOT escaped: each `.` is a regex wildcard (any
character but `\n`), so it matches any character, `0`, any character, `0`.
`(?:[.\d]*)?` is a run of dots/digits; since no `[.\d]` character equals the
space that starts ` compared to `, the run the regex engine settles on is
exactly the maximal one, making this deterministic recognizer equivalent to
the backtracking match. -/
def target_section_header_match (version_prefix_input : List Char) (line : List Char) : Bool :=
  match dropLit changeLogForLit line with
  | none => false
  | some r1 =>
    match dropLit version_prefix_input r1 with
    | none => false
    | some r2 =>
      match r2 with
      | c1 :: d1 :: c2 :: d2 :: r3 =>
          decide (c1 ≠ '\n') && decide (d1 = '0') &&
          decide (c2 ≠ '\n') && decide (d2 = '0') &&
          tailMatch (r3.dropWhile digitOrDot)
      | _ => false

/-- The generic header pattern of `extract_version_section`:
`r"^\*\*\*\*\* ChangeLog for .* compared to .* \*\*\*\*\*$"`: the literal
prefix, then newline-free text containing ` compared to `, closed by
` *****`. -/
def any_changelog_header_match (line : List Char) : Bool :=
  match dropLit changeLogForLit line with
  | none => false
  | some r1 =>
      decide (6 ≤ r1.length) &&
      decide (r1.drop (r1.length - 6) = starsEndLit) &&
      (containsLit comparedLit (r1.take (r1.length - 6)) &&
       noNL (r1.take (r1.length - 6)))

/-- Stated from the claim: the same target-header pattern but with the dots
of the `.0.0` suffix read as LITERAL dots (the claim asserts they "never act
as regex wildcards"). -/
def claimed_target_header_match (version_prefix_input : List Char) (line : List Char) : Bool :=
  match dropLit changeLogForLit line with
  | none => false
  | some r1 =>
    match dropLit version_prefix_input r1 with
    | none => false
    | some r2 =>
      match dropLit ".0.0".data r2 with
      | none => false
      | some r3 => tailMatch (r3.dropWhile digitOrDot)

/-- The language the compiled target pattern actually denotes (the wildcard
reading of `.0.0`): literal prefix, the requested version prefix, a
character, `0`, a character, `0`, a run of dots/digits, ` compared to `,
newline-free text, ` *****`. -/
def target_header_lang (version_prefix_input : List Char) (l : List Char) : Prop :=
  ∃ c1 c2 ds mid,
    c1 ≠ '\n' ∧ c2 ≠ '\n' ∧
    (∀ c ∈ ds, digitOrDot c = true) ∧
    (∀ c ∈ mid, c ≠ '\n') ∧
    l = changeLogForLit ++ (version_prefix_input ++
          (c1 :: '0' :: c2 :: '0' :: (ds ++ (comparedLit ++ (mid ++ starsEndLit)))))

/-! ## `extract_version_section` (`app/changelog_parser.py`)

The source splits the document with `splitlines()` and scans the lines with
an `in_section` flag: before the section, a line is consumed only when it
matches the target pattern (which then opens the section and is appended);
inside the section, a line matching the generic pattern stops the scan
without being appended, any other line is appended.  The document is
modelled as its list of (newline-free) lines. -/

/-- The `in_section` phase of the scan: collect lines until the next line
matching the generic header pattern (which is not consumed). -/
def scanSection : List (List Char) → List (List Char)
  | [] => []
  | l :: ls => if any_changelog_header_match l then [] else l :: scanSection ls

/-- `extract_version_section(changelog_content, version_prefix_input)` on the
split lines of the document. -/
def extract_version_section : List (List Char) → List Char → List (List Char)
  | [], _ => []
  | l :: ls, vp =>
      if target_section_header_match vp l then l :: scanSection ls
      else extract_version_section ls vp

/-! ## Lemmas about the literal primitives -/

theorem dropLit_self_append (lit r : List Char) : dropLit lit (lit ++ r) = some r := by
  induction lit with
  | nil => rfl
  | cons c cs ih => simp [dropLit, ih]

theorem dropLit_eq_some (lit : List Char) :
    ∀ s r : List Char, dropLit lit s = some r → s = lit ++ r := by
  induction lit with
  | nil =>
      intro s r h
      simp only [dropLit, Option.some.injEq] at h
      simp [h]
  | cons c cs ih =>
      intro s r h
      cases s with
      | nil => simp [dropLit] at h
      | cons d ds =>
          by_cases hc : c = d
          · subst hc
            simp only [dropLit, if_pos rfl] at h
            simpa using congrArg (c :: ·) (ih ds r h)
          · simp [dropLit, hc] at h

theorem dropWhile_append_of_all {p : Char → Bool} (ds rest : List Char)
    (h : ∀ c ∈ ds, p c = true) :
    List.dropWhile p (ds ++ rest) = List.dropWhile p rest := by
  induction ds with
  | nil => rfl
  | cons c cs ih =>
      have hc : p c = true := h c (by simp)
      simp only [List.cons_append, List.dropWhile_cons, hc, if_true]
      exact ih (fun x hx => h x (by simp [hx]))

theorem dropWhile_cons_false {p : Char → Bool} (c : Char) (l : List Char)
    (h : p c = false) : List.dropWhile p (c :: l) = c :: l := by
  simp [List.dropWhile_cons, h]

theorem comparedLit_cons : comparedLit = ' ' :: "compared to ".data := by decide

theorem dropWhile_digitOrDot_comparedLit (x : List Char) :
    List.dropWhile digitOrDot (comparedLit ++ x) = comparedLit ++ x := by
  rw [comparedLit_cons, List.cons_append, dropWhile_cons_false _ _ (by decide)]

/-- Soundness half of the characterization: a line accepted by the compiled
target pattern decomposes as the wildcard language prescribes. -/
theorem target_match_sound (vp l : List Char)
    (h : target_section_header_match vp l = true) : target_header_lang vp l := by
  unfold target_section_header_match at h
  split at h
  · exact absurd h (by simp)
  · rename_i r1 hA
    split at h
    · exact absurd h (by simp)
    · rename_i r2 hB
      split at h
      · rename_i c1 d1 c2 d2 r3
        simp only [Bool.and_eq_true, decide_eq_true_eq] at h
        obtain ⟨⟨⟨⟨hc1, hd1⟩, hc2⟩, hd2⟩, htail⟩ := h
        unfold tailMatch at htail
        split at htail
        · exact absurd htail (by simp)
        · rename_i r4 hC
          simp only [Bool.and_eq_true, decide_eq_true_eq] at htail
          obtain ⟨⟨hlen, hdropEq⟩, hnl⟩ := htail
          refine ⟨c1, c2, r3.takeWhile digitOrDot, r4.take (r4.length - 6),
            hc1, hc2, ?_, ?_, ?_⟩
          · intro c hc
            exact List.mem_takeWhile_imp hc
          · intro c hc
            have := List.all_eq_true.mp hnl c hc
            exact of_decide_eq_true this
          · subst hd1; subst hd2
            have e1 : l = changeLogForLit ++ r1 := dropLit_eq_some _ _ _ hA
            have e2 : r1 = vp ++ (c1 :: '0' :: c2 :: '0' :: r3) :=
              dropLit_eq_some _ _ _ hB
            have e3 : r3.takeWhile digitOrDot ++ r3.dropWhile digitOrDot = r3 :=
              List.takeWhile_append_dropWhile digitOrDot r3
            have e4 : r3.dropWhile digitOrDot = comparedLit ++ r4 :=
              dropLit_eq_some _ _ _ hC
            have e5 : r4.take (r4.length - 6) ++ r4.drop (r4.length - 6) = r4 :=
              List.take_append_drop _ _
            rw [hdropEq] at e5
            have hr3 : r3 = r3.takeWhile digitOrDot ++
                (comparedLit ++ (r4.take (r4.length - 6) ++ starsEndLit)) := by
              rw [e5, ← e4, e3]
            rw [e1, e2]
            conv_lhs => rw [hr3]
      · exact absurd h (by simp)

/-- Completeness half: every word of the wildcard language is accepted. -/
theorem target_match_complete (vp l : List Char)
    (h : target_header_lang vp l) : target_section_header_match vp l = true := by
  obtain ⟨c1, c2, ds, mid, hc1, hc2, hds, hmid, rfl⟩ := h
  simp only [target_section_header_match, dropLit_self_append]
  have hdw : (ds ++ (comparedLit ++ (mid ++ starsEndLit))).dropWhile digitOrDot
      = comparedLit ++ (mid ++ starsEndLit) := by
    rw [dropWhile_append_of_all ds _ hds, dropWhile_digitOrDot_comparedLit]
  rw [hdw]
  simp only [Bool.and_eq_true, decide_eq_true_eq]
  refine ⟨⟨⟨⟨hc1, by simp⟩, hc2⟩, by simp⟩, ?_⟩
  simp only [tailMatch, dropLit_self_append]
  have hlen : (mid ++ starsEndLit).length = mid.length + 6 := by
    simp [starsEndLit]
  have hsub : (mid ++ starsEndLit).length - 6 = mid.length := by
    rw [hlen]; omega
  rw [hsub]
  simp only [Bool.and_eq_true, decide_eq_true_eq]
  refine ⟨⟨?_, ?_⟩, ?_⟩
  · rw [hlen]; exact Nat.le_add_left _ _
  · exact List.drop_left mid starsEndLit
  · rw [List.take_left]
    exact List.all_eq_true.mpr (fun c hc => decide_eq_true (hmid c hc))

/-- C2 counterexample: with requested prefix `"22"`, the line
`***** ChangeLog for 22a0b0 compared to Z *****` is accepted by the pattern
the code compiles (the unescaped dots of `.0.0` match `a` and `b`), yet it
does not carry the literal `.0.0` suffix the claim requires, so the claimed
"recognized iff literal `.0.0` follows the prefix" equivalence is false at
this input. -/
theorem c2_counterexample :
    target_section_header_match "22".data
      "***** ChangeLog for 22a0b0 compared to Z *****".data = true
    ∧ claimed_target_header_match "22".data
      "***** ChangeLog for 22a0b0 compared to Z *****".data = false := by
  constructor
  · decide
  · decide

/-- C2 (amended): a line is recognized as the target section header iff it
consists of the literal `***** ChangeLog for `, the requested prefix (whose
dots are literal, via `re.escape`), then the suffix pattern `.0.0` in which
each unescaped dot matches an arbitrary (non-newline) character, then an
optional run of digits and dots, then ` compared to `, any text, then
` *****`, anchored to the whole line. -/
theorem c2_header_match_characterization (vp l : List Char) :
    target_section_header_match vp l = true ↔ target_header_lang vp l :=
  ⟨target_match_sound vp l, target_match_complete vp l⟩

/-! ## C7: the slice returned for a well-formed section -/

theorem scanSection_append (mid : List (List Char))
    (hmid : ∀ l ∈ mid, any_changelog_header_match l = false)
    (hdr2 : List Char) (hh : any_changelog_header_match hdr2 = true)
    (post : List (List Char)) :
    scanSection (mid ++ hdr2 :: post) = mid := by
  induction mid with
  | nil => simp [scanSection, hh]
  | cons l ls ih =>
      have hl : any_changelog_header_match l = false := hmid l (by simp)
      simp only [List.cons_append, scanSection, hl, if_false, Bool.false_eq_true]
      exact congrArg (l :: ·) (ih (fun x hx => hmid x (by simp [hx])))

/-- C7: in a document whose first line matching the version-22 target
pattern is the header `***** ChangeLog for 22.0.0 compared to X *****`,
followed by N non-header lines and then another generic changelog header,
`extract_version_section` with prefix `"22"` returns exactly 1+N lines: the
target header followed by the N lines; the terminating header is not
consumed, so the target header is the only header in the output. -/
theorem c7_section_slice (pre mid post : List (List Char)) (hdr2 : List Char)
    (hpre : ∀ l ∈ pre, target_section_header_match "22".data l = false)
    (hmid : ∀ l ∈ mid, any_changelog_header_match l = false)
    (hh : any_changelog_header_match hdr2 = true) :
    extract_version_section
        (pre ++ "***** ChangeLog for 22.0.0 compared to X *****".data
           :: (mid ++ hdr2 :: post)) "22".data
      = "***** ChangeLog for 22.0.0 compared to X *****".data :: mid
    ∧ (extract_version_section
        (pre ++ "***** ChangeLog for 22.0.0 compared to X *****".data
           :: (mid ++ hdr2 :: post)) "22".data).length = 1 + mid.length := by
  have ht : target_section_header_match "22".data
      "***** ChangeLog for 22.0.0 compared to X *****".data = true := by decide
  have hmain : extract_version_section
      (pre ++ "***** ChangeLog for 22.0.0 compared to X *****".data
         :: (mid ++ hdr2 :: post)) "22".data
      = "***** ChangeLog for 22.0.0 compared to X *****".data :: mid := by
    induction pre with
    | nil =>
        simp only [List.nil_append, extract_version_section, ht, if_true]
        rw [scanSection_append mid hmid hdr2 hh post]
    | cons p ps ih =>
        have hp : target_section_header_match "22".data p = false := hpre p (by simp)
        simp only [List.cons_append, extract_version_section, hp, if_false,
          Bool.false_eq_true]
        exact ih (fun x hx => hpre x (by simp [hx]))
  refine ⟨hmain, ?_⟩
  rw [hmain]
  simp [Nat.add_comm]

/-- C7 witness: a concrete five-line document around the version-22 section
(the preamble even contains a generic header for version 23, which the scan
correctly ignores before the section opens). -/
theorem c7_section_slice_witness :
    extract_version_section
        (["ignored line".data,
          "***** ChangeLog for 23.0.0 compared to 22.0.0 *****".data]
          ++ "***** ChangeLog for 22.0.0 compared to X *****".data
          :: (["For Users:".data, "FIX: crash (#1) fixed".data]
              ++ "***** ChangeLog for 21.0.5 compared to 21.0.4 *****".data
                 :: ["tail".data])) "22".data
      = ["***** ChangeLog for 22.0.0 compared to X *****".data,
         "For Users:".data, "FIX: crash (#1) fixed".data] :=
  (c7_section_slice
    ["ignored line".data,
     "***** ChangeLog for 23.0.0 compared to 22.0.0 *****".data]
    ["For Users:".data, "FIX: crash (#1) fixed".data]
    ["tail".data]
    "***** ChangeLog for 21.0.5 compared to 21.0.4 *****".data
    (by decide) (by decide) (by decide)).1

/-! ## Data model (`app/db_handler.py` schema and collaborator records) -/

/-- A row of the `changelog_dolibarr_line_v<version>` table. -/
structure DbRow where
  id : Nat
  line_content : Option String
  type : Option String
  not_supported : Bool
  not_supported_reason : Option String
  is_done : Bool
  pr_desc : Option String
  link : Option String
  diff : Option String
  desc_and_diff_tokens : Option Nat
deriving DecidableEq, Repr

/-- The seven-key `db_update_payload` dictionary that
`_process_single_changelog_line` builds and hands to
`update_changelog_line`. -/
structure UpdatePayload where
  is_done : Bool
  not_supported : Bool
  not_supported_reason : Option String
  pr_desc : Option String
  link : Option String
  diff : Option String
  desc_and_diff_tokens : Option Nat
deriving DecidableEq, Repr

/-- The JSON object returned by the host for one PR (`get_pr_details`);
absent/null keys are `none`. -/
structure PrDetails where
  title : Option String
  body : Option String
  html_url : Option String
deriving DecidableEq, Repr

/-- One item of the host search results (`search_prs_by_text`). -/
structure SearchItem where
  number : Option Nat
  title : Option String
deriving DecidableEq, Repr

/-- The summarization-service response dictionary (`chat_predict`). -/
structure LlmResp where
  model : Option String
  response : Option String
  prompt_tokens : Option Nat
  completion_tokens : Option Nat
  response_time_ms : Option Nat
deriving DecidableEq, Repr

/-- The external collaborators seen by the processor.  `get_pr_details` and
`get_pr_diff` return `none` on any transport/HTTP failure (the
`GitHubService` wrapper catches those and returns `None`);
`search_prs_by_text` returns `none` for an error and `some items` for a
result list; `chat_predict` either returns a response or raises
(`Except.error` carries `str(e)`). -/
structure ExtServices where
  get_pr_details : Nat → Option PrDetails
  get_pr_diff : Nat → Option String
  search_prs_by_text : String → Option (List SearchItem)
  chat_predict : String → String → Except String LlmResp

/-- Python runtime errors that the embedded code can raise. -/
inductive PyErr where
  | attributeError
deriving DecidableEq, Repr

/-- The status dictionary returned by `_attempt_pr_identification`. -/
inductive PRIdentOutcome where
  | success (pr_details : PrDetails) (pr_number : Nat) (pr_link : String)
      (method : String)
  | failure (reason : String)
deriving DecidableEq, Repr

/-! ## `app/db_handler.py` -/

/-- Largest id present in the table (`AUTOINCREMENT` hands out one more). -/
def maxRowId (st : List DbRow) : Nat :=
  st.foldr (fun r m => max r.id m) 0

/-- `insert_changelog_line`: the `UNIQUE` constraint on `line_content` makes
re-insertion of existing content a no-op; otherwise a fresh pending row is
appended. -/
def insert_changelog_line (st : List DbRow) (line_content : String)
    (line_type : Option String) : List DbRow :=
  if st.any (fun r => decide (r.line_content = some line_content)) then st
  else st ++ [{ id := maxRowId st + 1, line_content := some line_content,
                type := line_type, not_supported := false,
                not_supported_reason := none, is_done := false,
                pr_desc := none, link := none, diff := none,
                desc_and_diff_tokens := none }]

/-- Apply the seven-field payload of `update_changelog_line` to a row. -/
def applyPayload (r : DbRow) (p : UpdatePayload) : DbRow :=
  { r with is_done := p.is_done, not_supported := p.not_supported,
           not_supported_reason := p.not_supported_reason,
           pr_desc := p.pr_desc, link := p.link, diff := p.diff,
           desc_and_diff_tokens := p.desc_and_diff_tokens }

/-- `update_changelog_line(line_id, data)`: `UPDATE ... WHERE id = ?`. -/
def update_changelog_line (st : List DbRow) (line_id : Nat)
    (data : UpdatePayload) : List DbRow :=
  st.map (fun r => if r.id = line_id then applyPayload r data else r)

/-- `get_lines_to_process(limit, random_selection)`:
`SELECT * FROM t WHERE is_done = FALSE AND not_supported = FALSE`, plus
`LIMIT` when given.  In the default mode there is NO `ORDER BY` clause, so
rows come back in the stored table (insertion/rowid) order, which the list
order of the model represents.  `ORDER BY RANDOM()` (`random_selection =
True`) applies an unspecified permutation; the model does not model the
RNG and keeps stored order there as well (no claim depends on that mode). -/
def get_lines_to_process (st : List DbRow) (limit : Option Nat)
    (random_selection : Bool) : List DbRow :=
  let sel := st.filter (fun r => !r.is_done && !r.not_supported)
  match limit with
  | none => sel
  | some n => sel.take n

/-- First row with the given id (`sqlite` primary-key lookup, for stating
row-stability properties). -/
def rowById (st : List DbRow) (i : Nat) : Option DbRow :=
  st.find? (fun r => r.id == i)

/-! ## `app/changelog_parser.py`: `_extract_pr_number_from_text` -/

/-- `re.search(r"#(\d+)", text)`: leftmost `#` followed by at least one
digit; the captured group is the maximal digit run after it. -/
def scanForHash : List Char → Option Nat
  | [] => none
  | c :: rest =>
      if c = '#' then
        let ds := rest.takeWhile Char.isDigit
        if ds.isEmpty then scanForHash rest else some (digitsToNat ds)
      else scanForHash rest

/-- `ChangelogParser._extract_pr_number_from_text` (note the leading
underscore in the source): `None` for falsy text, else the first `#<digits>`
reference parsed with `int`. -/
def extract_pr_number_from_text (text : String) : Option Nat :=
  if text = "" then none else scanForHash text.data

/-! ## `app/changelog_processor.py`: constants -/

def LLM_MODEL_NAME : String := "chat-gpt4o-mini"

def MAX_DIFF_LENGTH : Nat := 3500

def INSUFFICIENT_INFO_MSG : String := "Information insuffisante pour résumer."

def NO_DESCRIPTION_MSG : String := "Aucune description fournie."

def MSG_EMPTY_CONTENT : String := "Contenu de ligne vide (None)"

def DEFAULT_PR_IDENTIFICATION_FAILURE_REASON : String :=
  "Raison inconnue d\u0027échec d\u0027identification PR"

def LOG_SEPARATOR : String := "\n\n========== CHANGELOG ENTRY ==========\n\n"

def USER_SUMMARY_INSTRUCTION : String :=
  "En te basant sur la \u0027Ligne originale du changelog\u0027 et les détails techniques fournis (description PR, diff), reformule cette nouveauté ou correction en quelques phrases simples et concises pour un utilisateur final de Dolibarr. Explique clairement ce que cela change ou apporte pour lui dans son utilisation quotidienne, en évitant le jargon technique. Si la nouveauté introduit une nouvelle fonctionnalité ou modifie une interaction existante, indique de manière simple comment l\u0027utilisateur peut y accéder ou la constater (ex: \u0027Vous trouverez cette option dans le menu X > Y\u0027 ou \u0027Lors de la création d\u0027une facture, vous remarquerez que...\u0027). Pour les corrections de bugs qui restaurent un fonctionnement attendu, concentre-toi sur le bénéfice de la correction. Si l\u0027ensemble de ces informations n\u0027est pas suffisant pour un résumé pertinent, indique \u0027" ++ INSUFFICIENT_INFO_MSG ++ "\u0027."

def DEV_SUMMARY_INSTRUCTION : String :=
  "En te basant **principalement sur le diff et la description technique de la PR**, et en t\u0027aidant de la \u0027Ligne originale du changelog\u0027, génère un résumé technique concis (1 à 2 phrases maximum). Ce résumé doit expliquer la nature du changement (ex: refactoring, ajout de hook, modification d\u0027API, optimisation de requête) et son impact technique principal (ex: modules/classes clés affectés, conséquences sur les performances, changements de dépendances, dépréciation de fonctionnalités) pour un autre développeur. Si l\u0027ensemble de ces informations n\u0027est pas suffisant pour un résumé pertinent, indique \u0027" ++ INSUFFICIENT_INFO_MSG ++ "\u0027."

/-! The `LLM_CONTEXT_PROMPT_TEMPLATE` literal, split at its placeholders
(`{line_content}`, `#{pr_number}`, `{pr_title}`, `{pr_description}`,
`{pr_diff_content}`, `{max_diff_length}`, `{audience_target}`,
`{summary_instruction}`, `{insufficient_info_msg}`). -/

def LLM_TPL_1 : String :=
  "Contexte : Tu es un assistant IA chargé de rédiger des notes de version claires et concises pour le logiciel Dolibarr, en adaptant le message à l\u0027audience cible.\n\n    Informations disponibles pour générer le résumé :\n\n    1.  **Ligne originale du changelog :** \""

def LLM_TPL_2 : String :=
  "\"\n\n    2.  **Informations techniques de la Pull Request (PR) #"

def LLM_TPL_3 : String := " associée :**\n        * Titre de la PR : "

def LLM_TPL_4 : String := "\n        * Description de la PR :\n            "

def LLM_TPL_5 : String :=
  "\n\n    3.  **Diff des modifications (extrait potentiellement tronqué) :**\n        ```diff\n    "

def LLM_TPL_6 : String :=
  "\n        ```\n        (Note: Le diff ci-dessus peut être tronqué à "

def LLM_TPL_7 : String :=
  " caractères.)\n\n    Ta tâche est de générer un résumé pour "

def LLM_TPL_8 : String :=
  ".\n\n    Instruction spécifique pour le résumé :\n    "

def LLM_TPL_9 : String :=
  "\n\n    Règles importantes pour le résumé :\n    - Ne mentionne PAS le numéro de la PR.\n    - Commence directement par le résumé.\n    - Si tu estimes que l\u0027information est insuffisante, réponds UNIQUEMENT par la phrase \u0027"

def LLM_TPL_10 : String := "\u0027.\n    "

/-! ## `app/changelog_processor.py`: PR resolution -/

/-- `ChangelogProcessor.get_pr_details_by_number`: fetch the details; the
link is `html_url` when truthy, else the canonical default link. -/
def get_pr_details_by_number (svc : ExtServices) (pr_number : Nat) :
    Option (PrDetails × String) :=
  match svc.get_pr_details pr_number with
  | none => none
  | some pr_details =>
      some (pr_details,
        if pyTruthyOptStr pr_details.html_url then pr_details.html_url.getD ""
        else "https://github.com/Dolibarr/dolibarr/pull/" ++ toString pr_number)

/-- `ChangelogProcessor._search_pr_by_description`: returns the 5-tuple
`(pr_details, pr_number, pr_link, method, reason)` exactly as the source
does. -/
def search_pr_by_description (svc : ExtServices) (line_content : String) :
    Option PrDetails × Option Nat × Option String × Option String × Option String :=
  let search_term_full := pyStrip line_content
  let search_term :=
    if pyContainsChar search_term_full ':' &&
       decide (10 < pyLen (pyStrip (afterFirstColon search_term_full))) then
      pyStrip (afterFirstColon search_term_full)
    else search_term_full
  let search_term := pyTake search_term 150
  if pyLen search_term < 10 then
    (none, none, none, none,
     some ("Terme de recherche trop court: '" ++ search_term ++ "'"))
  else
    match svc.search_prs_by_text search_term with
    | none =>
        (none, none, none, none,
         some ("Aucune PR trouvée ou erreur de recherche pour '" ++
               search_term ++ "'."))
    | some [] =>
        (none, none, none, none,
         some ("Aucune PR trouvée ou erreur de recherche pour '" ++
               search_term ++ "'."))
    | some [pr_data_from_search] =>
        if pyTruthyOptNat pr_data_from_search.number then
          match pr_data_from_search.number with
          | some pr_number_from_search =>
              (match get_pr_details_by_number svc pr_number_from_search with
               | some (pr_details, pr_link) =>
                   (some pr_details, some pr_number_from_search,
                    some pr_link, some "search", none)
               | none =>
                   (none, none, none, none,
                    some ("Impossible de récupérer les détails pour la PR #" ++
                          toString pr_number_from_search ++
                          " trouvée par recherche.")))
          | none =>
              (none, none, none, none,
               some ("PR trouvée par recherche sans numéro: " ++
                     pr_data_from_search.title.getD "N/A"))
        else
          (none, none, none, none,
           some ("PR trouvée par recherche sans numéro: " ++
                 pr_data_from_search.title.getD "N/A"))
    | some found_prs =>
        (none, none, none, none,
         some (toString found_prs.length ++ " PRs trouvées pour '" ++
               search_term ++ "', ambiguïté."))

/-- `ChangelogProcessor._attempt_pr_identification`, parameterized over the
result of looking up `extract_pr_number_from_text` on `self.parser` — the
single point at which the faithful and intended embeddings differ (see
`parser_extract_attr_lookup` below).  The rest of the body is translated
from the source: direct extraction first; if it yields a truthy number and
the details resolve, success with method `direct_extraction`; otherwise fall
through to the description search; otherwise a failure record whose reason
follows the `reason_search or ... if pr_number_from_text else reason_search`
expression of the source. -/
def attempt_pr_identification_core
    (extract_attr : Except PyErr (String → Option Nat))
    (svc : ExtServices) (line_content : String) :
    Except PyErr PRIdentOutcome :=
  match extract_attr with
  | .error e => .error e
  | .ok extract =>
      let pr_number_from_text := extract line_content
      let direct : Option PRIdentOutcome :=
        if pyTruthyOptNat pr_number_from_text then
          match pr_number_from_text with
          | some n =>
              (match get_pr_details_by_number svc n with
               | some (pr_details, pr_link) =>
                   some (.success pr_details n pr_link "direct_extraction")
               | none => none)
          | none => none
        else none
      match direct with
      | some res => .ok res
      | none =>
          match search_pr_by_description svc line_content with
          | (some pr_details_search, pr_number_search, pr_link_search,
             method_search, _) =>
              .ok (.success pr_details_search (pr_number_search.getD 0)
                    (pr_link_search.getD "") (pyOrStr method_search "search"))
          | (none, _, _, _, reason_search) =>
              let final_reason : Option String :=
                if pyTruthyOptNat pr_number_from_text then
                  some (pyOrStr reason_search
                    ("Détails PR #" ++ toString (pr_number_from_text.getD 0) ++
                     " (extraite directement) non récupérables et recherche infructueuse."))
                else reason_search
              .ok (.failure
                (pyOrStr final_reason DEFAULT_PR_IDENTIFICATION_FAILURE_REASON))

/-- The attribute lookup `self.parser.extract_pr_number_from_text` performed
at the top of `_attempt_pr_identification`: `ChangelogParser` defines only
`_extract_pr_number_from_text` (underscore-prefixed) and no
`extract_pr_number_from_text`, so the lookup raises `AttributeError` before
any extraction happens. -/
def parser_extract_attr_lookup : Except PyErr (String → Option Nat) :=
  .error .attributeError

/-- `ChangelogProcessor._attempt_pr_identification` as the source runs:
the misnamed attribute lookup raises first. -/
def attempt_pr_identification (svc : ExtServices) (line_content : String) :
    Except PyErr PRIdentOutcome :=
  attempt_pr_identification_core parser_extract_attr_lookup svc line_content

/-- The evidently intended `_attempt_pr_identification`: the same body with
the lookup resolved to the method the parser actually defines,
`_extract_pr_number_from_text` (the call the parser itself uses in its own
older `_attempt_pr_identification`). -/
def attempt_pr_identification_intended (svc : ExtServices) (line_content : String) :
    Except PyErr PRIdentOutcome :=
  attempt_pr_identification_core (.ok extract_pr_number_from_text) svc line_content

/-! ## `app/changelog_processor.py`: prompt preparation and row processing -/

/-- The `llm_related_db_data` dictionary of `_prepare_data_for_llm_and_db`. -/
structure LlmDbData where
  pr_desc : String
  link : String
  diff : String
deriving DecidableEq, Repr

/-- `ChangelogProcessor._prepare_data_for_llm_and_db` (the `pr_info` dict of
the success outcome is passed as its three fields).  The database payload
keeps `pr_diff_content` whole; only the prompt embeds
`pr_diff_content[:MAX_DIFF_LENGTH]`. -/
def prepare_data_for_llm_and_db (line_content : String)
    (pr_details : PrDetails) (pr_number : Nat) (pr_link : String)
    (pr_diff_content : String) (changelog_line_type : Option String) :
    LlmDbData × String :=
  let pr_title := pr_details.title.getD ""
  let pr_description0 := pr_details.body.getD NO_DESCRIPTION_MSG
  let pr_description :=
    if pr_description0 = "" then NO_DESCRIPTION_MSG else pr_description0
  let llm_related_db_data : LlmDbData :=
    { pr_desc := "Titre PR: " ++ pr_title ++ "\n\nDescription PR:\n" ++ pr_description,
      link := pr_link, diff := pr_diff_content }
  let summary_instruction :=
    if changelog_line_type = some "dev" then DEV_SUMMARY_INSTRUCTION
    else USER_SUMMARY_INSTRUCTION
  let audience_target :=
    if changelog_line_type = some "dev" then "un développeur"
    else "un utilisateur final de Dolibarr"
  let llm_prompt :=
    LLM_TPL_1 ++ line_content ++ LLM_TPL_2 ++ toString pr_number ++ LLM_TPL_3 ++
    pr_title ++ LLM_TPL_4 ++ pr_description ++ LLM_TPL_5 ++
    pyTake pr_diff_content MAX_DIFF_LENGTH ++ LLM_TPL_6 ++
    toString MAX_DIFF_LENGTH ++ LLM_TPL_7 ++ audience_target ++ LLM_TPL_8 ++
    summary_instruction ++ LLM_TPL_9 ++ INSUFFICIENT_INFO_MSG ++ LLM_TPL_10
  (llm_related_db_data, llm_prompt)

/-- The initial `db_update_payload` of `_process_single_changelog_line`. -/
def basePayload : UpdatePayload :=
  { is_done := false, not_supported := false, not_supported_reason := none,
    pr_desc := none, link := none, diff := none, desc_and_diff_tokens := none }

/-- The `log_message_prefix` f-string (`None` fields render as `"None"`). -/
def logMessagePrefix (row : DbRow) : String :=
  pyShowOptStr row.type ++ " Ligne ID " ++ toString row.id ++ " ('" ++
  pyShowOptStr row.line_content ++ "'): \n\n"

/-- `ChangelogProcessor._process_single_changelog_line`.  The method either
returns (`.ok`) the `db_update_payload` it hands to `update_changelog_line`
together with its log string, or raises (`.error`) — which, in the source as
written, happens on every non-`None` row because `_attempt_pr_identification`
performs the misnamed parser-attribute lookup before anything else.  The
remaining branches are translated from the source nonetheless: diff fetch
and truthiness check, prompt preparation, the inner `try/except` around
`chat_predict` (success marks `is_done` and records the token sum, a raised
exception marks `not_supported` with the stringified error), the
diff-unavailable branch (which still records the PR link), and the
resolution-failure branch. -/
def process_single_changelog_line (svc : ExtServices) (row : DbRow) :
    Except PyErr (UpdatePayload × String) :=
  let log_message_prefix := logMessagePrefix row
  match row.line_content with
  | none =>
      .ok ({ basePayload with
             not_supported := true,
             not_supported_reason := some MSG_EMPTY_CONTENT },
           log_message_prefix ++ " Contenu vide, ignorée.")
  | some line_content =>
      match attempt_pr_identification svc line_content with
      | .error e => .error e
      | .ok (.success pr_details pr_number_identified pr_link method) =>
          let pr_diff := svc.get_pr_diff pr_number_identified
          if pyTruthyOptStr pr_diff then
            let pr_diff_content := pr_diff.getD ""
            let prep := prepare_data_for_llm_and_db line_content pr_details
              pr_number_identified pr_link pr_diff_content row.type
            let payload :=
              { basePayload with
                pr_desc := some prep.1.pr_desc,
                link := some prep.1.link, diff := some prep.1.diff }
            match svc.chat_predict LLM_MODEL_NAME prep.2 with
            | .ok response =>
                let summary_result := response.response.getD ""
                let prompt_tokens := response.prompt_tokens.getD 0
                let completion_tokens := response.completion_tokens.getD 0
                .ok ({ payload with
                       is_done := true,
                       desc_and_diff_tokens := some (prompt_tokens + completion_tokens) },
                     log_message_prefix ++ " Résumé généré: " ++ summary_result)
            | .error e =>
                let error_msg := "Erreur lors de l'appel à l'IA: " ++ e
                .ok ({ payload with
                       not_supported := true,
                       not_supported_reason := some error_msg },
                     log_message_prefix ++ " Échec de génération de résumé (" ++
                       error_msg ++ ").")
          else
            let reason := "Diff non récupérable pour PR #" ++
              toString pr_number_identified
            .ok ({ basePayload with
                   not_supported := true,
                   not_supported_reason := some reason, link := some pr_link },
                 log_message_prefix ++ " Pas de Diff trouvé, pas de résumé généré.")
      | .ok (.failure reason0) =>
          let reason := reason0
          .ok ({ basePayload with
                 not_supported := true,
                 not_supported_reason := some reason },
               log_message_prefix ++ " Pas de PR trouvée (" ++ reason ++
                 "), pas de résumé généré.")

/-- The per-row loop of `process_changelog_lines_refactored`: each row runs
inside its own `try/except`; a raised error leaves the database untouched
for that row and the loop moves on; an `.ok` result applies the payload to
the row id and collects the (truthy) log entry. -/
def runBatchLoop (svc : ExtServices) :
    List DbRow → List DbRow → List String → List DbRow × List String
  | [], st, logs => (st, logs)
  | row :: rest, st, logs =>
      match process_single_changelog_line svc row with
      | .ok (payload, log_entry) =>
          runBatchLoop svc rest (update_changelog_line st row.id payload)
            (if log_entry = "" then logs else logs ++ [log_entry])
      | .error _ => runBatchLoop svc rest st logs

/-- `ChangelogProcessor.process_changelog_lines_refactored(process_limit)`:
select up to `process_limit` pending rows, return `None` when there are
none, else process each row in its failure boundary and return the
`LOG_SEPARATOR`-joined collected logs, or `None` when none were collected.
The result pairs the final database state with the returned value. -/
def process_changelog_lines_refactored (svc : ExtServices) (st : List DbRow)
    (process_limit : Nat) : List DbRow × Option String :=
  let lines_to_process := get_lines_to_process st (some process_limit) false
  if lines_to_process.isEmpty then (st, none)
  else
    let res := runBatchLoop svc lines_to_process st []
    (res.1, if res.2.isEmpty then none else some (pyJoin LOG_SEPARATOR res.2))

/-! ## `app/changelog_processor.py`: `determine_line_type_and_process_db` -/

/-- Python `s.startswith(pat)`. -/
def pyStartsWithLit (s pat : String) : Bool := (dropLit pat.data s.data).isSome

/-- Python `s.endswith(pat)`. -/
def pyEndsWithLit (s pat : String) : Bool :=
  decide (pat.data.length ≤ s.data.length) &&
  decide (s.data.drop (s.data.length - pat.data.length) = pat.data)

/-- `re.fullmatch(r"^-+$", s)`: a nonempty line made only of dashes. -/
def isDashOnlyLine (s : String) : Bool :=
  !s.data.isEmpty && s.data.all (fun c => decide (c = '-'))

/-- The fixed warning-preamble sentence skipped by the classifier. -/
def warning_preamble_line_to_skip : String :=
  "the following changes may create regressions for some external modules, but were necessary to make dolibarr better:"

/-- One iteration of the classifier loop: thread the current audience type
and the table, examining the stripped/lowered line as the source does. -/
def classifyStep (acc : Option String × List DbRow) (line_text : String) :
    Option String × List DbRow :=
  if pyStrip line_text = "" then acc
  else if pyLower (pyStrip line_text) = "for users:" then (some "user", acc.2)
  else if pyLower (pyStrip line_text) = "for developers:" ∨
          pyLower (pyStrip line_text) = "warning:" then (some "dev", acc.2)
  else if pyStartsWithLit (pyLower (pyStrip line_text)) "***** changelog for " ∧
          pyEndsWithLit (pyStrip line_text) "*****" then (none, acc.2)
  else if isDashOnlyLine (pyStrip line_text) then acc
  else if pyLower (pyStrip line_text) = warning_preamble_line_to_skip then acc
  else (acc.1, insert_changelog_line acc.2 (pyStrip line_text) acc.1)

/-- `determine_line_type_and_process_db(section_lines)`: fold the classifier
over the section lines, starting with no audience context, returning the
updated table. -/
def determine_line_type_and_process_db (st : List DbRow)
    (section_lines : List String) : List DbRow :=
  (section_lines.foldl classifyStep (none, st)).2

/-! ## The pipeline operations quantified over by the queue invariant -/

/-- One pipeline-level operation on the persisted queue. -/
inductive PipelineOp where
  | ingest (lines : List String)
  | runBatch (limit : Nat)

/-- Apply one pipeline operation to the queue. -/
def apply_pipeline_op (svc : ExtServices) (st : List DbRow) :
    PipelineOp → List DbRow
  | .ingest lines => determine_line_type_and_process_db st lines
  | .runBatch limit => (process_changelog_lines_refactored svc st limit).1

/-- Apply a sequence of pipeline operations. -/
def apply_pipeline (svc : ExtServices) : List DbRow → List PipelineOp → List DbRow
  | st, [] => st
  | st, op :: ops => apply_pipeline svc (apply_pipeline_op svc st op) ops

/-! ## C4: the Stage-2 contract, stated from the claim -/

/-- The search term as the claim words it: the trimmed substring after the
first colon when the line contains a colon and that trimmed substring
exceeds 10 characters, otherwise the whole trimmed line; truncated to 150
characters. -/
def c4_search_term (line_content : String) : String :=
  let whole := pyStrip line_content
  let after_colon := pyStrip (afterFirstColon whole)
  pyTake
    (if pyContainsChar whole ':' && decide (10 < pyLen after_colon) then after_colon
     else whole) 150

/-- Stated from the claim: the Stage-2 outcome over the merged-PR search
results — a too-short term fails before searching; a host error or zero
results fail with the no-PR-found reason; exactly one result with no
extractable number (absent or zero, both falsy) fails as malformed; exactly
one result whose details are unfetchable fails; more than one result fails
as ambiguous with the hit count; exactly one fully-resolved result succeeds
with method `search`. -/
def search_pr_by_description_claim (svc : ExtServices) (line_content : String) :
    Option PrDetails × Option Nat × Option String × Option String × Option String :=
  let term := c4_search_term line_content
  if pyLen term < 10 then
    (none, none, none, none,
     some ("Terme de recherche trop court: '" ++ term ++ "'"))
  else
    match svc.search_prs_by_text term with
    | none =>
        (none, none, none, none,
         some ("Aucune PR trouvée ou erreur de recherche pour '" ++ term ++ "'."))
    | some [] =>
        (none, none, none, none,
         some ("Aucune PR trouvée ou erreur de recherche pour '" ++ term ++ "'."))
    | some [item] =>
        (match item.number with
         | none =>
             (none, none, none, none,
              some ("PR trouvée par recherche sans numéro: " ++
                    item.title.getD "N/A"))
         | some n =>
             if n = 0 then
               (none, none, none, none,
                some ("PR trouvée par recherche sans numéro: " ++
                      item.title.getD "N/A"))
             else
               match get_pr_details_by_number svc n with
               | some (pr_details, pr_link) =>
                   (some pr_details, some n, some pr_link, some "search", none)
               | none =>
                   (none, none, none, none,
                    some ("Impossible de récupérer les détails pour la PR #" ++
                          toString n ++ " trouvée par recherche.")))
    | some found_prs =>
        (none, none, none, none,
         some (toString found_prs.length ++ " PRs trouvées pour '" ++ term ++
               "', ambiguïté."))

/-- C4: `_search_pr_by_description` behaves exactly as the claim describes —
term derivation, the 10-character gate, and the five outcome cases over the
search results. -/
theorem c4_stage2_refinement (svc : ExtServices) (line_content : String) :
    search_pr_by_description svc line_content
      = search_pr_by_description_claim svc line_content := by
  unfold search_pr_by_description search_pr_by_description_claim c4_search_term
  by_cases hshort :
      pyLen (pyTake
        (if pyContainsChar (pyStrip line_content) ':' &&
            decide (10 < pyLen (pyStrip (afterFirstColon (pyStrip line_content)))) then
          pyStrip (afterFirstColon (pyStrip line_content))
        else pyStrip line_content) 150) < 10
  · simp only [hshort, if_true]
  · simp only [hshort, if_false]
    cases hs : svc.search_prs_by_text
        (pyTake
          (if pyContainsChar (pyStrip line_content) ':' &&
              decide (10 < pyLen (pyStrip (afterFirstColon (pyStrip line_content)))) then
            pyStrip (afterFirstColon (pyStrip line_content))
          else pyStrip line_content) 150) with
    | none => rfl
    | some items =>
        match items with
        | [] => rfl
        | [item] =>
            cases hn : item.number with
            | none => simp only [hn]; rfl
            | some n =>
                cases n with
                | zero => simp only [hn]; rfl
                | succ m => simp only [hn]; rfl
        | item1 :: item2 :: rest => rfl

/-! ## C3: the resolver on a direct numeric reference -/

/-- Host stub holding valid details for PR 4521. -/
def c3_details : PrDetails :=
  { title := some "Fix crash in invoice module",
    body := some "Fixes the crash reported in issue 4500",
    html_url := some "https://github.com/Dolibarr/dolibarr/pull/4521" }

def c3_services : ExtServices :=
  { get_pr_details := fun n => if n = 4521 then some c3_details else none,
    get_pr_diff := fun _ => none,
    search_prs_by_text := fun _ => some [],
    chat_predict := fun _ _ => .error "unused" }

/-- Host stub where PR 4521 details are NOT retrievable but a text search
finds exactly one PR, 9999, with retrievable details (the Stage-2
fall-through scenario of the claim). -/
def c3_details_9999 : PrDetails :=
  { title := some "Fix crash when totals are rounded",
    body := none,
    html_url := some "https://github.com/Dolibarr/dolibarr/pull/9999" }

def c3_services_fallthrough : ExtServices :=
  { get_pr_details := fun n => if n = 9999 then some c3_details_9999 else none,
    get_pr_diff := fun _ => none,
    search_prs_by_text := fun _ =>
      some [{ number := some 9999, title := some "Fix crash when totals are rounded" }],
    chat_predict := fun _ _ => .error "unused" }

/-- C3 (code bug): `_attempt_pr_identification` as written raises
`AttributeError` on EVERY input — it calls
`self.parser.extract_pr_number_from_text`, a method `ChangelogParser` does
not define (only `_extract_pr_number_from_text` exists) — so
`resolve("Fixed crash (#4521)")` never returns the claimed
success/method=direct result.  With the evidently intended call resolved to
the parser method that does exist, the claim holds: the first `#<digits>`
reference is parsed (4521), its details fetched, success with the direct
method tag; and when the direct details are unfetchable the code falls
through to the Stage-2 search instead of failing immediately. -/
theorem c3_resolver_attribute_error :
    (∀ (svc : ExtServices) (lc : String),
      attempt_pr_identification svc lc = .error PyErr.attributeError)
    ∧ attempt_pr_identification_intended c3_services "Fixed crash (#4521)"
        = .ok (.success c3_details 4521
            "https://github.com/Dolibarr/dolibarr/pull/4521" "direct_extraction")
    ∧ attempt_pr_identification_intended c3_services_fallthrough "Fixed crash (#4521)"
        = .ok (.success c3_details_9999 9999
            "https://github.com/Dolibarr/dolibarr/pull/9999" "search") := by
  refine ⟨fun svc lc => rfl, ?_, ?_⟩
  · rfl
  · rfl

/-! ## C1: the three-entry batch scenario -/

def c1_row (i : Nat) (content : String) (ty : String) : DbRow :=
  { id := i, line_content := some content, type := some ty,
    not_supported := false, not_supported_reason := none, is_done := false,
    pr_desc := none, link := none, diff := none, desc_and_diff_tokens := none }

/-- The three pending entries of the claim scenario. -/
def c1_state : List DbRow :=
  [c1_row 1 "Fix A (#100)" "user", c1_row 2 "Fix B (#200)" "user",
   c1_row 3 "Fix C (#300)" "dev"]

/-- The collaborators of the claim scenario: details retrievable for all
three PRs, the diff fetch fails for entry 2 (PR 200), and the summarization
call raises on entry 3 (its prompt mentions PR 300). -/
def c1_services : ExtServices :=
  { get_pr_details := fun n =>
      if n = 100 ∨ n = 200 ∨ n = 300 then
        some { title := some ("PR " ++ toString n), body := some "desc",
               html_url := some ("https://github.com/Dolibarr/dolibarr/pull/" ++
                                 toString n) }
      else none,
    get_pr_diff := fun n =>
      if n = 100 then some "diff du PR 100"
      else if n = 300 then some "diff du PR 300"
      else none,
    search_prs_by_text := fun _ => some [],
    chat_predict := fun _ prompt =>
      if containsLit "(PR) #300".data prompt.data then .error "panne du service"
      else .ok { model := some "chat-gpt4o-mini", response := some "résumé généré",
                 prompt_tokens := some 10, completion_tokens := some 5,
                 response_time_ms := some 42 } }

/-- C1 (code bug): on the claimed scenario, `runBatch(3)` marks nothing —
every entry raises `AttributeError` at the misnamed
`self.parser.extract_pr_number_from_text` call, the per-row handler swallows
it, all three rows stay exactly as they were (pending), and the batch
returns `None` instead of the claimed aggregated log; in particular entry 1
does not end `isDone` and entry 2 does not end `notSupported`. -/
theorem c1_runbatch_scenario_eval :
    process_changelog_lines_refactored c1_services c1_state 3 = (c1_state, none)
    ∧ c1_state.all (fun r => !r.is_done && !r.not_supported) = true := by
  constructor
  · rfl
  · decide

/-! ## C10: the stored diff is whole, the prompt copy is truncated -/

theorem string_append_assoc (a b c : String) : a ++ b ++ c = a ++ (b ++ c) := by
  apply String.ext
  simp [String.data_append, List.append_assoc]

/-- C10: on the success path, `_prepare_data_for_llm_and_db` puts the diff
into the database payload exactly as fetched (untruncated), while the
prompt embeds only the copy truncated to `MAX_DIFF_LENGTH = 3500`
characters; and `update_changelog_line` stores payload fields verbatim into
the row, so the row diff column receives the whole diff. -/
theorem c10_stored_diff_untruncated (line_content : String) (pr_details : PrDetails)
    (pr_number : Nat) (pr_link : String) (pr_diff_content : String)
    (changelog_line_type : Option String) :
    (prepare_data_for_llm_and_db line_content pr_details pr_number pr_link
        pr_diff_content changelog_line_type).1.diff = pr_diff_content
    ∧ (∃ a b, (prepare_data_for_llm_and_db line_content pr_details pr_number
          pr_link pr_diff_content changelog_line_type).2
        = a ++ (pyTake pr_diff_content MAX_DIFF_LENGTH ++ b))
    ∧ (∀ (r : DbRow) (p : UpdatePayload), (applyPayload r p).diff = p.diff) := by
  refine ⟨rfl, ?_, fun r p => rfl⟩
  refine ⟨LLM_TPL_1 ++ line_content ++ LLM_TPL_2 ++ toString pr_number ++
      LLM_TPL_3 ++ pr_details.title.getD "" ++ LLM_TPL_4 ++
      (if pr_details.body.getD NO_DESCRIPTION_MSG = "" then NO_DESCRIPTION_MSG
       else pr_details.body.getD NO_DESCRIPTION_MSG) ++ LLM_TPL_5,
    LLM_TPL_6 ++ toString MAX_DIFF_LENGTH ++ LLM_TPL_7 ++
      (if changelog_line_type = some "dev" then "un développeur"
       else "un utilisateur final de Dolibarr") ++ LLM_TPL_8 ++
      (if changelog_line_type = some "dev" then DEV_SUMMARY_INSTRUCTION
       else USER_SUMMARY_INSTRUCTION) ++ LLM_TPL_9 ++ INSUFFICIENT_INFO_MSG ++
      LLM_TPL_10, ?_⟩
  unfold prepare_data_for_llm_and_db
  simp only [string_append_assoc]

/-! ## C8: the classifier on the four-line example and the warning bucket -/

def c8_row_user : DbRow :=
  { id := 1, line_content := some "Did thing (#123)", type := some "user",
    not_supported := false, not_supported_reason := none, is_done := false,
    pr_desc := none, link := none, diff := none, desc_and_diff_tokens := none }

def c8_row_dev : DbRow :=
  { id := 2, line_content := some "Did other thing", type := some "dev",
    not_supported := false, not_supported_reason := none, is_done := false,
    pr_desc := none, link := none, diff := none, desc_and_diff_tokens := none }

/-- C8: classifying `["For Users:", "Did thing (#123)", "For Developers:",
"Did other thing"]` into an empty queue persists exactly the two content
rows, tagged `user` and `dev`; the audience header lines themselves are
never persisted; and any line whose trimmed case-folded form is exactly
`"warning:"` only switches the current audience to `dev` — the same bucket
as `"for developers:"` — without inserting anything. -/
theorem c8_classifier :
    determine_line_type_and_process_db []
        ["For Users:", "Did thing (#123)", "For Developers:", "Did other thing"]
      = [c8_row_user, c8_row_dev]
    ∧ (∀ (ty : Option String) (st : List DbRow) (line : String),
        pyLower (pyStrip line) = "warning:" →
        classifyStep (ty, st) line = (some "dev", st))
    ∧ (∀ (ty : Option String) (st : List DbRow) (line : String),
        pyLower (pyStrip line) = "for developers:" →
        classifyStep (ty, st) line = (some "dev", st)) := by
  refine ⟨by decide, ?_, ?_⟩
  · intro ty st line h
    by_cases hs : pyStrip line = ""
    · exfalso; rw [hs] at h; exact absurd h (by decide)
    · unfold classifyStep
      simp [hs, h]
  · intro ty st line h
    by_cases hs : pyStrip line = ""
    · exfalso; rw [hs] at h; exact absurd h (by decide)
    · unfold classifyStep
      simp [hs, h]

/-- C8 witness: concrete lines with surrounding whitespace and mixed case
land in the `dev` bucket through both triggers. -/
theorem c8_classifier_witness :
    classifyStep (none, []) "  WARNING:  " = (some "dev", [])
    ∧ classifyStep (some "user", []) " For Developers: " = (some "dev", []) :=
  ⟨c8_classifier.2.1 none [] "  WARNING:  " (by decide),
   c8_classifier.2.2 (some "user") [] " For Developers: " (by decide)⟩

/-! ## C9: what order the default (non-random) selection really returns -/

/-- Lexicographic `≤` on character lists (by code point), used to express
the sortedness the claim asserts for the audience tags. -/
def listLexLe : List Char → List Char → Bool
  | [], _ => true
  | _ :: _, [] => false
  | a :: as, b :: bs =>
      if a.toNat < b.toNat then true
      else if a.toNat = b.toNat then listLexLe as bs
      else false

/-- The audience tag of a row, as a string (`""` for a null tag). -/
def tagOf (r : DbRow) : String := r.type.getD ""

/-- Adjacent-pairs check: the rows appear in non-decreasing audience-tag
order. -/
def sortedByTagAsc : List DbRow → Bool
  | [] => true
  | [_] => true
  | a :: b :: rest =>
      listLexLe (tagOf a).data (tagOf b).data && sortedByTagAsc (b :: rest)

/-- Adjacent-pairs check: the rows appear in non-increasing audience-tag
order. -/
def sortedByTagDesc : List DbRow → Bool
  | [] => true
  | [_] => true
  | a :: b :: rest =>
      listLexLe (tagOf b).data (tagOf a).data && sortedByTagDesc (b :: rest)

def c9_row (i : Nat) (content : String) (ty : String) : DbRow :=
  { id := i, line_content := some content, type := some ty,
    not_supported := false, not_supported_reason := none, is_done := false,
    pr_desc := none, link := none, diff := none, desc_and_diff_tokens := none }

/-- Three pending rows whose tags interleave: user, dev, user. -/
def c9_state : List DbRow :=
  [c9_row 1 "User fix one" "user", c9_row 2 "Dev fix" "dev",
   c9_row 3 "User fix two" "user"]

/-- C9 counterexample: the default (non-random) selection has no `ORDER BY`
clause — it returns the pending rows in stored table order, here
`user, dev, user`, which is sorted by audience tag in neither direction, so
the claimed "ordered by their audience tag" property is false at this
queue. -/
theorem c9_counterexample :
    get_lines_to_process c9_state (some 10) false = c9_state
    ∧ sortedByTagAsc (get_lines_to_process c9_state (some 10) false) = false
    ∧ sortedByTagDesc (get_lines_to_process c9_state (some 10) false) = false := by
  refine ⟨rfl, by decide, by decide⟩

/-- C9 (amended): the batch pulls up to `L` pending rows and, in the default
non-random mode, returns them in their stored (insertion/id) table order —
a stable order, but not an ordering by audience tag: the selection is a
sublist of the table holding only pending rows, at most `L` of them. -/
theorem c9_default_selection_amended (st : List DbRow) (L : Nat) :
    (get_lines_to_process st (some L) false).length ≤ L
    ∧ (get_lines_to_process st (some L) false).Sublist st
    ∧ (∀ r ∈ get_lines_to_process st (some L) false,
        r.is_done = false ∧ r.not_supported = false) := by
  refine ⟨?_, ?_, ?_⟩
  · simpa [get_lines_to_process] using
      List.length_take_le L (st.filter (fun r => !r.is_done && !r.not_supported))
  · exact ((List.take_prefix L _).sublist).trans (List.filter_sublist st)
  · intro r hr
    have hr' : r ∈ st.filter (fun r => !r.is_done && !r.not_supported) :=
      List.mem_of_mem_take hr
    have := (List.mem_filter.mp hr').2
    simp only [Bool.and_eq_true, Bool.not_eq_true'] at this
    exact this

/-- C9 witness: the amended statement evaluated on the concrete interleaved
queue with limit 2. -/
theorem c9_default_selection_amended_witness :
    (get_lines_to_process c9_state (some 2) false).length ≤ 2
    ∧ (c9_row 1 "User fix one" "user").is_done = false :=
  ⟨(c9_default_selection_amended c9_state 2).1,
   ((c9_default_selection_amended c9_state 2).2.2
     (c9_row 1 "User fix one" "user") (by decide)).1⟩

/-! ## Helper lemmas on the persisted queue model -/

/-- The selection of `get_lines_to_process` is a sublist of the table (it
never reorders in the default mode; a `LIMIT` only shortens it). -/
theorem get_lines_sublist (st : List DbRow) (lim : Option Nat) (rnd : Bool) :
    (get_lines_to_process st lim rnd).Sublist st := by
  cases lim with
  | none => exact List.filter_sublist st
  | some n =>
      exact ((List.take_prefix n _).sublist).trans (List.filter_sublist st)

/-- Every selected row is pending. -/
theorem get_lines_pending (st : List DbRow) (lim : Option Nat) (rnd : Bool)
    (r : DbRow) (hr : r ∈ get_lines_to_process st lim rnd) :
    r.is_done = false ∧ r.not_supported = false := by
  have hr' : r ∈ st.filter (fun r => !r.is_done && !r.not_supported) := by
    cases lim with
    | none => exact hr
    | some n => exact List.mem_of_mem_take hr
  have := (List.mem_filter.mp hr').2
  simp only [Bool.and_eq_true, Bool.not_eq_true'] at this
  exact this

/-- With distinct ids, looking a member row up by its id finds that row. -/
theorem mem_nodup_rowById (st : List DbRow) (r : DbRow)
    (hids : (st.map DbRow.id).Nodup) (hr : r ∈ st) :
    rowById st r.id = some r := by
  induction st with
  | nil => cases hr
  | cons a as ih =>
      rcases List.mem_cons.mp hr with rfl | hr'
      · simp [rowById, List.find?]
      · rw [List.map_cons] at hids
        have hnd := List.nodup_cons.mp hids
        have hne : a.id ≠ r.id := by
          intro he
          have : r.id ∈ as.map DbRow.id := List.mem_map_of_mem DbRow.id hr'
          rw [← he] at this
          exact hnd.1 this
        have : (a.id == r.id) = false := beq_eq_false_iff_ne.mpr hne
        simp only [rowById, List.find?, this]
        exact ih hnd.2 hr'

/-- With distinct ids, two member rows with the same id are the same row. -/
theorem nodup_map_id_inj (st : List DbRow)
    (hids : (st.map DbRow.id).Nodup) :
    ∀ a ∈ st, ∀ b ∈ st, a.id = b.id → a = b := by
  induction st with
  | nil => intro a ha; cases ha
  | cons h t ih =>
      rw [List.map_cons] at hids
      have hnd := List.nodup_cons.mp hids
      intro a ha b hb he
      rcases List.mem_cons.mp ha with rfl | ha' <;>
        rcases List.mem_cons.mp hb with rfl | hb'
      · rfl
      · exact absurd (he ▸ List.mem_map_of_mem DbRow.id hb') hnd.1
      · exact absurd (he ▸ List.mem_map_of_mem DbRow.id ha') hnd.1
      · exact ih hnd.2 a ha' b hb' he

/-- `applyPayload` never changes the row id. -/
theorem applyPayload_id (r : DbRow) (p : UpdatePayload) :
    (applyPayload r p).id = r.id := rfl

/-- Updating one row keeps the id column of the whole table. -/
theorem update_map_id (st : List DbRow) (i : Nat) (p : UpdatePayload) :
    (update_changelog_line st i p).map DbRow.id = st.map DbRow.id := by
  induction st with
  | nil => rfl
  | cons r rs ih =>
      simp only [update_changelog_line, List.map_cons] at ih ⊢
      rw [ih]
      by_cases hr : r.id = i <;> simp [hr, applyPayload]

/-- Looking up an id other than the updated one sees the old table. -/
theorem rowById_update_ne (st : List DbRow) (i line_id : Nat)
    (p : UpdatePayload) (hne : i ≠ line_id) :
    rowById (update_changelog_line st line_id p) i = rowById st i := by
  induction st with
  | nil => rfl
  | cons r rs ih =>
      by_cases hr : r.id = line_id
      · have : (r.id == i) = false :=
          beq_eq_false_iff_ne.mpr (fun he => hne (by rw [← he]; exact hr))
        simp only [update_changelog_line, List.map_cons, rowById, List.find?,
          if_pos hr]
        rw [show ((applyPayload r p).id == i) = false from this]
        rw [show (r.id == i) = false from this]
        exact ih
      · simp only [update_changelog_line, rowById, List.find?, if_neg hr]
        by_cases hri : r.id = i
        · simp [hri]
        · rw [show (r.id == i) = false from beq_eq_false_iff_ne.mpr hri]
          exact ih

/-- Looking up the updated id sees the payload applied to the old row. -/
theorem rowById_update_self (st : List DbRow) (line_id : Nat)
    (p : UpdatePayload) :
    rowById (update_changelog_line st line_id p) line_id
      = (rowById st line_id).map (fun r => applyPayload r p) := by
  induction st with
  | nil => rfl
  | cons r rs ih =>
      by_cases hr : r.id = line_id
      · simp only [update_changelog_line, rowById, List.find?, if_pos hr]
        rw [show ((applyPayload r p).id == line_id) = true from beq_iff_eq.mpr hr]
        rw [show (r.id == line_id) = true from beq_iff_eq.mpr hr]
        rfl
      · simp only [update_changelog_line, rowById, List.find?, if_neg hr]
        rw [show (r.id == line_id) = false from beq_eq_false_iff_ne.mpr hr]
        exact ih

/-- A successful lookup is untouched by appending rows to the table. -/
theorem rowById_append_of_some (st l2 : List DbRow) (i : Nat) (r : DbRow)
    (h : rowById st i = some r) : rowById (st ++ l2) i = some r := by
  induction st with
  | nil => simp [rowById] at h
  | cons a as ih =>
      by_cases ha : (a.id == i) = true
      · simp only [rowById, List.find?, ha] at h ⊢
        exact h
      · have ha' : (a.id == i) = false := by simpa using ha
        simp only [rowById, List.find?, ha'] at h ⊢
        exact ih h

/-- Every row id is bounded by `maxRowId`. -/
theorem le_maxRowId (st : List DbRow) : ∀ r ∈ st, r.id ≤ maxRowId st := by
  induction st with
  | nil => intro r hr; cases hr
  | cons a as ih =>
      intro r hr
      rcases List.mem_cons.mp hr with rfl | hr'
      · exact le_max_left _ _
      · exact le_trans (ih r hr') (le_max_right _ _)

/-- The id `AUTOINCREMENT` hands out is fresh. -/
theorem fresh_id_not_mem (st : List DbRow) :
    (maxRowId st + 1) ∉ st.map DbRow.id := by
  intro h
  rcases List.mem_map.mp h with ⟨r, hr, he⟩
  have := le_maxRowId st r hr
  omega

/-! ## Queue invariant machinery -/

/-- The §3 invariant: no row is both done and not-supported. -/
def rows_invariant (st : List DbRow) : Prop :=
  ∀ r ∈ st, ¬(r.is_done = true ∧ r.not_supported = true)

/-- Every payload `_process_single_changelog_line` hands to the update sets
at most one of the two terminal flags. -/
theorem payload_flags_ok (svc : ExtServices) (row : DbRow) (p : UpdatePayload)
    (log : String) (h : process_single_changelog_line svc row = .ok (p, log)) :
    ¬(p.is_done = true ∧ p.not_supported = true) := by
  unfold process_single_changelog_line at h
  cases hrow : row.line_content with
  | none =>
      rw [hrow] at h
      simp only [Except.ok.injEq, Prod.mk.injEq] at h
      obtain ⟨hp, -⟩ := h
      rw [← hp]
      decide
  | some lc =>
      rw [hrow] at h
      have hattr : attempt_pr_identification svc lc = .error PyErr.attributeError := rfl
      simp only [hattr] at h
      simp at h

/-- Applying a flags-consistent payload keeps the invariant. -/
theorem rows_invariant_update (st : List DbRow) (i : Nat) (p : UpdatePayload)
    (hinv : rows_invariant st)
    (hp : ¬(p.is_done = true ∧ p.not_supported = true)) :
    rows_invariant (update_changelog_line st i p) := by
  intro r hr
  unfold update_changelog_line at hr
  rcases List.mem_map.mp hr with ⟨a, ha, rfl⟩
  by_cases h : a.id = i
  · simp only [if_pos h]
    simpa [applyPayload] using hp
  · simp only [if_neg h]
    exact hinv a ha

/-- The per-row log entry a row contributes to the aggregated return value
(nothing when its processing raises, nothing when its log is falsy). -/
def batch_log_entry (svc : ExtServices) (r : DbRow) : Option String :=
  match process_single_changelog_line svc r with
  | .ok (_, log_entry) => if log_entry = "" then none else some log_entry
  | .error _ => none

/-- The ids of the table never change across the batch loop. -/
theorem runBatchLoop_map_id (svc : ExtServices) (rows : List DbRow) :
    ∀ (st : List DbRow) (logs : List String),
    ((runBatchLoop svc rows st logs).1).map DbRow.id = st.map DbRow.id := by
  induction rows with
  | nil => intro st logs; rfl
  | cons row rest ih =>
      intro st logs
      cases hps : process_single_changelog_line svc row with
      | ok pl =>
          simp only [runBatchLoop, hps]
          rw [ih, update_map_id]
      | error e =>
          simp only [runBatchLoop, hps]
          exact ih st logs

/-- The batch loop keeps the invariant. -/
theorem runBatchLoop_invariant (svc : ExtServices) (rows : List DbRow) :
    ∀ (st : List DbRow) (logs : List String), rows_invariant st →
    rows_invariant (runBatchLoop svc rows st logs).1 := by
  induction rows with
  | nil => intro st logs hinv; exact hinv
  | cons row rest ih =>
      intro st logs hinv
      cases hps : process_single_changelog_line svc row with
      | ok pl =>
          simp only [runBatchLoop, hps]
          exact ih _ _ (rows_invariant_update st row.id pl.1 hinv
            (payload_flags_ok svc row pl.1 pl.2 (by rw [hps])))
      | error e =>
          simp only [runBatchLoop, hps]
          exact ih st logs hinv

/-- Ids outside the processed rows are untouched by the loop. -/
theorem runBatchLoop_rowById_not_mem (svc : ExtServices) (rows : List DbRow) :
    ∀ (st : List DbRow) (logs : List String) (i : Nat),
    i ∉ rows.map DbRow.id →
    rowById (runBatchLoop svc rows st logs).1 i = rowById st i := by
  induction rows with
  | nil => intro st logs i _; rfl
  | cons row rest ih =>
      intro st logs i hi
      rw [List.map_cons] at hi
      have hne : i ≠ row.id := fun he => hi (by simp [he])
      have hrest : i ∉ rest.map DbRow.id := fun he => hi (by simp [he])
      cases hps : process_single_changelog_line svc row with
      | ok pl =>
          simp only [runBatchLoop, hps]
          rw [ih _ _ i hrest, rowById_update_ne st i row.id pl.1 hne]
      | error e =>
          simp only [runBatchLoop, hps]
          exact ih st logs i hrest

/-- What the loop leaves at the id of each processed row: the applied
payload for a row whose processing returned one, the untouched old row for
a row whose processing raised. -/
theorem runBatchLoop_rowById_mem (svc : ExtServices) (rows : List DbRow) :
    ∀ (st : List DbRow) (logs : List String),
    (rows.map DbRow.id).Nodup →
    (∀ r ∈ rows, rowById st r.id = some r) →
    ∀ r ∈ rows,
      rowById (runBatchLoop svc rows st logs).1 r.id
        = match process_single_changelog_line svc r with
          | .ok (p, _) => some (applyPayload r p)
          | .error _ => some r := by
  induction rows with
  | nil => intro st logs _ _ r hr; cases hr
  | cons row rest ih =>
      intro st logs hnd hmem r hr
      rw [List.map_cons] at hnd
      have hnd' := List.nodup_cons.mp hnd
      rcases List.mem_cons.mp hr with rfl | hr'
      · cases hps : process_single_changelog_line svc r with
        | ok pl =>
            simp only [runBatchLoop, hps]
            rw [runBatchLoop_rowById_not_mem svc rest _ _ r.id hnd'.1,
              rowById_update_self, hmem r (by simp)]
            rfl
        | error e =>
            simp only [runBatchLoop, hps]
            rw [runBatchLoop_rowById_not_mem svc rest st logs r.id hnd'.1]
            exact hmem r (by simp)
      · have hne : r.id ≠ row.id := by
          intro he
          exact hnd'.1 (he ▸ List.mem_map_of_mem DbRow.id hr')
        cases hps : process_single_changelog_line svc row with
        | ok pl =>
            simp only [runBatchLoop, hps]
            refine ih _ _ hnd'.2 ?_ r hr'
            intro s hs
            have hsne : s.id ≠ row.id := by
              intro he
              exact hnd'.1 (he ▸ List.mem_map_of_mem DbRow.id hs)
            rw [rowById_update_ne st s.id row.id pl.1 hsne]
            exact hmem s (by simp [hs])
        | error e =>
            simp only [runBatchLoop, hps]
            exact ih st logs hnd'.2 (fun s hs => hmem s (by simp [hs])) r hr'

/-- The collected logs are exactly the truthy per-row entries, in order. -/
theorem runBatchLoop_logs (svc : ExtServices) (rows : List DbRow) :
    ∀ (st : List DbRow) (logs : List String),
    (runBatchLoop svc rows st logs).2
      = logs ++ rows.filterMap (batch_log_entry svc) := by
  induction rows with
  | nil => intro st logs; simp [runBatchLoop]
  | cons row rest ih =>
      intro st logs
      cases hps : process_single_changelog_line svc row with
      | ok pl =>
          by_cases hlog : pl.2 = ""
          · simp only [runBatchLoop, hps, hlog, if_pos rfl]
            rw [ih]
            simp [List.filterMap_cons, batch_log_entry, hps, hlog]
          · simp only [runBatchLoop, hps, if_neg hlog]
            rw [ih]
            simp [List.filterMap_cons, batch_log_entry, hps, hlog]
      | error e =>
          simp only [runBatchLoop, hps]
          rw [ih]
          simp [List.filterMap_cons, batch_log_entry, hps]

/-- Insertion keeps distinct ids, keeps the invariant (a fresh row is
pending), and never disturbs an existing row. -/
theorem insert_preserves (st : List DbRow) (c : String) (ty : Option String)
    (hids : (st.map DbRow.id).Nodup) (hinv : rows_invariant st) :
    ((insert_changelog_line st c ty).map DbRow.id).Nodup
    ∧ rows_invariant (insert_changelog_line st c ty)
    ∧ (∀ (i : Nat) (r : DbRow), rowById st i = some r →
        rowById (insert_changelog_line st c ty) i = some r) := by
  unfold insert_changelog_line
  by_cases hdup : st.any (fun r => decide (r.line_content = some c)) = true
  · rw [if_pos hdup]
    exact ⟨hids, hinv, fun i r h => h⟩
  · rw [if_neg hdup]
    refine ⟨?_, ?_, ?_⟩
    · rw [List.map_append]
      refine List.Nodup.append hids (List.nodup_singleton _) ?_
      intro a ha hb
      simp only [List.map_cons, List.map_nil, List.mem_singleton] at hb
      rw [hb] at ha
      exact fresh_id_not_mem st ha
    · intro r hr
      rcases List.mem_append.mp hr with h1 | h2
      · exact hinv r h1
      · simp only [List.mem_singleton] at h2
        rw [h2]
        simp
    · intro i r h
      exact rowById_append_of_some st _ i r h

/-- One classifier step keeps distinct ids, keeps the invariant, and never
disturbs an existing row (header/separator/preamble lines touch nothing,
content lines only insert). -/
theorem classifyStep_preserves (ty : Option String) (st : List DbRow)
    (line : String)
    (hids : (st.map DbRow.id).Nodup) (hinv : rows_invariant st) :
    (((classifyStep (ty, st) line).2).map DbRow.id).Nodup
    ∧ rows_invariant (classifyStep (ty, st) line).2
    ∧ (∀ (i : Nat) (r : DbRow), rowById st i = some r →
        rowById (classifyStep (ty, st) line).2 i = some r) := by
  unfold classifyStep
  split_ifs with h1 h2 h3 h4 h5 h6
  · exact ⟨hids, hinv, fun i r h => h⟩
  · exact ⟨hids, hinv, fun i r h => h⟩
  · exact ⟨hids, hinv, fun i r h => h⟩
  · exact ⟨hids, hinv, fun i r h => h⟩
  · exact ⟨hids, hinv, fun i r h => h⟩
  · exact ⟨hids, hinv, fun i r h => h⟩
  · exact insert_preserves st (pyStrip line) ty hids hinv

/-- The classifier fold keeps distinct ids, the invariant, and every
pre-existing row. -/
theorem classify_fold_preserves (lines : List String) :
    ∀ (ty : Option String) (st : List DbRow),
    (st.map DbRow.id).Nodup → rows_invariant st →
    (((lines.foldl classifyStep (ty, st)).2).map DbRow.id).Nodup
    ∧ rows_invariant (lines.foldl classifyStep (ty, st)).2
    ∧ (∀ (i : Nat) (r : DbRow), rowById st i = some r →
        rowById (lines.foldl classifyStep (ty, st)).2 i = some r) := by
  induction lines with
  | nil => intro ty st hids hinv; exact ⟨hids, hinv, fun i r h => h⟩
  | cons l ls ih =>
      intro ty st hids hinv
      have hstep := classifyStep_preserves ty st l hids hinv
      rcases hcs : classifyStep (ty, st) l with ⟨tyn, stn⟩
      rw [hcs] at hstep
      obtain ⟨ha, hb, hc⟩ := hstep
      rw [List.foldl_cons, hcs]
      obtain ⟨hA, hB, hC⟩ := ih tyn stn ha hb
      exact ⟨hA, hB, fun i r h => hC i r (hc i r h)⟩

/-- `process_changelog_lines_refactored` written out without its `let`s. -/
theorem batch_unfold (svc : ExtServices) (st : List DbRow) (L : Nat) :
    process_changelog_lines_refactored svc st L
      = (if (get_lines_to_process st (some L) false).isEmpty then (st, none)
         else ((runBatchLoop svc (get_lines_to_process st (some L) false) st []).1,
               if ((runBatchLoop svc (get_lines_to_process st (some L) false) st []).2).isEmpty
               then none
               else some (pyJoin LOG_SEPARATOR
                 (runBatchLoop svc (get_lines_to_process st (some L) false) st []).2))) := rfl

/-- A batch keeps distinct ids, keeps the invariant, and leaves every
terminal row untouched (terminal rows are never selected, and with distinct
ids no selected row shares their id). -/
theorem batch_preserves (svc : ExtServices) (st : List DbRow) (L : Nat)
    (hids : (st.map DbRow.id).Nodup) (hinv : rows_invariant st) :
    (((process_changelog_lines_refactored svc st L).1).map DbRow.id).Nodup
    ∧ rows_invariant (process_changelog_lines_refactored svc st L).1
    ∧ (∀ r ∈ st, (r.is_done = true ∨ r.not_supported = true) →
        rowById (process_changelog_lines_refactored svc st L).1 r.id = some r) := by
  rw [batch_unfold]
  by_cases hemp : (get_lines_to_process st (some L) false).isEmpty = true
  · rw [if_pos hemp]
    exact ⟨hids, hinv, fun r hr _ => mem_nodup_rowById st r hids hr⟩
  · rw [if_neg hemp]
    refine ⟨?_, ?_, ?_⟩
    · rw [runBatchLoop_map_id]
      exact hids
    · exact runBatchLoop_invariant svc _ st [] hinv
    · intro r hr hterm
      have hnotin : r.id ∉ (get_lines_to_process st (some L) false).map DbRow.id := by
        intro hmem
        rcases List.mem_map.mp hmem with ⟨s, hs, hse⟩
        have hp := get_lines_pending st (some L) false s hs
        have hsmem : s ∈ st := (get_lines_sublist st (some L) false).subset hs
        have hsr : s = r := nodup_map_id_inj st hids s hsmem r hr hse
        rcases hterm with h | h
        · rw [hsr] at hp; rw [hp.1] at h; cases h
        · rw [hsr] at hp; rw [hp.2] at h; cases h
      rw [runBatchLoop_rowById_not_mem svc _ st [] r.id hnotin]
      exact mem_nodup_rowById st r hids hr

/-- One pipeline operation keeps distinct ids, the invariant, and every
terminal row. -/
theorem op_preserves (svc : ExtServices) (st : List DbRow) (op : PipelineOp)
    (hids : (st.map DbRow.id).Nodup) (hinv : rows_invariant st) :
    ((apply_pipeline_op svc st op).map DbRow.id).Nodup
    ∧ rows_invariant (apply_pipeline_op svc st op)
    ∧ (∀ r ∈ st, (r.is_done = true ∨ r.not_supported = true) →
        rowById (apply_pipeline_op svc st op) r.id = some r) := by
  cases op with
  | ingest lines =>
      obtain ⟨hA, hB, hC⟩ := classify_fold_preserves lines none st hids hinv
      exact ⟨hA, hB, fun r hr _ => hC r.id r (mem_nodup_rowById st r hids hr)⟩
  | runBatch L => exact batch_preserves svc st L hids hinv

/-- Any sequence of pipeline operations keeps distinct ids, the invariant,
and every terminal row. -/
theorem pipeline_preserves (svc : ExtServices) (ops : List PipelineOp) :
    ∀ st : List DbRow, (st.map DbRow.id).Nodup → rows_invariant st →
    ((apply_pipeline svc st ops).map DbRow.id).Nodup
    ∧ rows_invariant (apply_pipeline svc st ops)
    ∧ (∀ r ∈ st, (r.is_done = true ∨ r.not_supported = true) →
        rowById (apply_pipeline svc st ops) r.id = some r) := by
  induction ops with
  | nil =>
      intro st hids hinv
      exact ⟨hids, hinv, fun r hr _ => mem_nodup_rowById st r hids hr⟩
  | cons op ops ih =>
      intro st hids hinv
      obtain ⟨h1, h2, h3⟩ := op_preserves svc st op hids hinv
      obtain ⟨hA, hB, hC⟩ := ih (apply_pipeline_op svc st op) h1 h2
      refine ⟨hA, hB, ?_⟩
      intro r hr ht
      have hst1 : rowById (apply_pipeline_op svc st op) r.id = some r := h3 r hr ht
      have hmem1 : r ∈ apply_pipeline_op svc st op := List.mem_of_find?_eq_some hst1
      exact hC r hmem1 ht

/-- C5: across any sequence of pipeline operations on a well-formed queue
(distinct ids) satisfying the invariant, (i) `isDone` and `notSupported` are
never both true, (ii) ids stay distinct, (iii) a terminal row is never
selected again and never changes — so it never transitions back to pending,
(iv) an unlimited selection picks a row exactly when both flags are false,
and (v) every selected row (any limit, any ordering mode) is pending. -/
theorem c5_queue_invariant (svc : ExtServices) (st : List DbRow)
    (ops : List PipelineOp)
    (hids : (st.map DbRow.id).Nodup) (hinv : rows_invariant st) :
    rows_invariant (apply_pipeline svc st ops)
    ∧ ((apply_pipeline svc st ops).map DbRow.id).Nodup
    ∧ (∀ r ∈ st, (r.is_done = true ∨ r.not_supported = true) →
        rowById (apply_pipeline svc st ops) r.id = some r)
    ∧ (∀ r : DbRow, r ∈ get_lines_to_process st none false ↔
        (r ∈ st ∧ r.is_done = false ∧ r.not_supported = false))
    ∧ (∀ (lim : Option Nat) (rnd : Bool) (r : DbRow),
        r ∈ get_lines_to_process st lim rnd →
        r.is_done = false ∧ r.not_supported = false) := by
  obtain ⟨hA, hB, hC⟩ := pipeline_preserves svc ops st hids hinv
  refine ⟨hB, hA, hC, ?_, fun lim rnd r hr => get_lines_pending st lim rnd r hr⟩
  intro r
  constructor
  · intro hr
    have hp := get_lines_pending st none false r hr
    exact ⟨(get_lines_sublist st none false).subset hr, hp.1, hp.2⟩
  · rintro ⟨hmem, h1, h2⟩
    show r ∈ st.filter (fun r => !r.is_done && !r.not_supported)
    exact List.mem_filter.mpr ⟨hmem, by simp [h1, h2]⟩

def c5_services : ExtServices :=
  { get_pr_details := fun _ => none,
    get_pr_diff := fun _ => none,
    search_prs_by_text := fun _ => none,
    chat_predict := fun _ _ => .error "panne" }

def c5_terminal_row : DbRow :=
  { id := 1, line_content := some "Already summarized line", type := some "user",
    not_supported := false, not_supported_reason := none, is_done := true,
    pr_desc := some "Titre PR: t", link := some "l", diff := some "d",
    desc_and_diff_tokens := some 15 }

def c5_pending_row : DbRow :=
  { id := 2, line_content := some "Still pending line", type := some "dev",
    not_supported := false, not_supported_reason := none, is_done := false,
    pr_desc := none, link := none, diff := none, desc_and_diff_tokens := none }

def c5_state : List DbRow := [c5_terminal_row, c5_pending_row]

def c5_ops : List PipelineOp :=
  [.ingest ["For Users:", "Freshly ingested content line"], .runBatch 5]

/-- C5 witness: over a concrete ingest-then-batch run, the already-`isDone`
row is returned unchanged by an id lookup, and a concretely selected row is
pending. -/
theorem c5_queue_invariant_witness :
    rowById (apply_pipeline c5_services c5_state c5_ops) 1 = some c5_terminal_row
    ∧ c5_pending_row.is_done = false ∧ c5_pending_row.not_supported = false :=
  ⟨(c5_queue_invariant c5_services c5_state c5_ops (by decide)
        (by unfold rows_invariant; decide)).2.2.1
      c5_terminal_row (by decide) (by decide),
   (c5_queue_invariant c5_services c5_state c5_ops (by decide)
        (by unfold rows_invariant; decide)).2.2.2.2
      (some 10) false c5_pending_row (by decide)⟩

/-- C6: on a well-formed queue, each selected row is processed inside its
own failure boundary: a row whose processing raises is left exactly as it
was (still pending), a row whose processing returns a payload ends with
that payload applied (so a failure on one row never prevents the others
from being processed), and the batch returns the separator-joined truthy
per-row log entries — or null when no rows were pending or no row produced
an entry. -/
theorem c6_per_row_isolation (svc : ExtServices) (st : List DbRow) (L : Nat)
    (hids : (st.map DbRow.id).Nodup) :
    (∀ r ∈ get_lines_to_process st (some L) false, ∀ e : PyErr,
        process_single_changelog_line svc r = .error e →
        rowById (process_changelog_lines_refactored svc st L).1 r.id
          = rowById st r.id)
    ∧ (∀ r ∈ get_lines_to_process st (some L) false,
        ∀ (p : UpdatePayload) (log : String),
        process_single_changelog_line svc r = .ok (p, log) →
        rowById (process_changelog_lines_refactored svc st L).1 r.id
          = some (applyPayload r p))
    ∧ (process_changelog_lines_refactored svc st L).2
        = (if (get_lines_to_process st (some L) false).isEmpty then none
           else if ((get_lines_to_process st (some L) false).filterMap
                     (batch_log_entry svc)).isEmpty then none
           else some (pyJoin LOG_SEPARATOR
             ((get_lines_to_process st (some L) false).filterMap
               (batch_log_entry svc)))) := by
  have hsub := get_lines_sublist st (some L) false
  have hnd : ((get_lines_to_process st (some L) false).map DbRow.id).Nodup :=
    hids.sublist (hsub.map DbRow.id)
  have hmem : ∀ r ∈ get_lines_to_process st (some L) false,
      rowById st r.id = some r :=
    fun r hr => mem_nodup_rowById st r hids (hsub.subset hr)
  rw [batch_unfold]
  by_cases hemp : (get_lines_to_process st (some L) false).isEmpty = true
  · have hnil : get_lines_to_process st (some L) false = [] :=
      List.isEmpty_iff.mp hemp
    rw [if_pos hemp]
    refine ⟨?_, ?_, ?_⟩
    · intro r hr; rw [hnil] at hr; cases hr
    · intro r hr; rw [hnil] at hr; cases hr
    · rw [if_pos hemp]
  · rw [if_neg hemp]
    refine ⟨?_, ?_, ?_⟩
    · intro r hr e hps
      have := runBatchLoop_rowById_mem svc _ st [] hnd hmem r hr
      rw [hps] at this
      rw [this, hmem r hr]
    · intro r hr p log hps
      have := runBatchLoop_rowById_mem svc _ st [] hnd hmem r hr
      rw [hps] at this
      exact this
    · rw [if_neg hemp, runBatchLoop_logs]
      rfl

def c6_services : ExtServices :=
  { get_pr_details := fun _ => none,
    get_pr_diff := fun _ => none,
    search_prs_by_text := fun _ => none,
    chat_predict := fun _ _ => .error "panne" }

def c6_null_row : DbRow :=
  { id := 1, line_content := none, type := none,
    not_supported := false, not_supported_reason := none, is_done := false,
    pr_desc := none, link := none, diff := none, desc_and_diff_tokens := none }

def c6_content_row : DbRow :=
  { id := 2, line_content := some "A content line", type := some "user",
    not_supported := false, not_supported_reason := none, is_done := false,
    pr_desc := none, link := none, diff := none, desc_and_diff_tokens := none }

def c6_state : List DbRow := [c6_null_row, c6_content_row]

/-- C6 witness: on a concrete two-row queue — a null-content row whose
processing returns a payload and a content row whose processing raises —
the raising row keeps its exact old state while the other is updated, as
given by the theorem at this instance. -/
theorem c6_per_row_isolation_witness :
    rowById (process_changelog_lines_refactored c6_services c6_state 5).1 2
      = rowById c6_state 2
    ∧ rowById (process_changelog_lines_refactored c6_services c6_state 5).1 1
      = some (applyPayload c6_null_row
          { is_done := false, not_supported := true,
            not_supported_reason := some MSG_EMPTY_CONTENT, pr_desc := none,
            link := none, diff := none, desc_and_diff_tokens := none }) :=
  ⟨(c6_per_row_isolation c6_services c6_state 5 (by decide)).1
      c6_content_row (by decide) PyErr.attributeError rfl,
   (c6_per_row_isolation c6_services c6_state 5 (by decide)).2.1
      c6_null_row (by decide)
      { is_done := false, not_supported := true,
        not_supported_reason := some MSG_EMPTY_CONTENT, pr_desc := none,
        link := none, diff := none, desc_and_diff_tokens := none }
      (logMessagePrefix c6_null_row ++ " Contenu vide, ignorée.") rfl⟩
